import Mathlib

/-!
Shallow embedding of src/run.py (IGDB data import pipeline): the field
parsers, the row validation with exclusion filters, and the timestamp-gated
upsert writer.  Python strings are modelled as lists of characters (Str);
the Python null marker None is Option.none; a raised exception is
Except.error ().
-/

abbrev Str := List Char

deriving instance DecidableEq for Except

/-- Whitespace set of Python str.strip (ASCII subset). -/
def isPyWs (c : Char) : Bool :=
  c == ' ' || c == '\t' || c == '\n' || c == '\r' || c == '\x0b' || c == '\x0c'

/-- Python value.strip(): drop whitespace from both ends. -/
def pyStrip (s : Str) : Str :=
  ((s.dropWhile isPyWs).reverse.dropWhile isPyWs).reverse

/-- Python value.strip(chars): drop characters of the given set from both ends. -/
def pyStripChars (cs : Str) (s : Str) : Str :=
  ((s.dropWhile (fun c => cs.contains c)).reverse.dropWhile (fun c => cs.contains c)).reverse

/-- Python str.split(sep) for a one-character separator. -/
def splitOnChar (sep : Char) : Str → List Str
  | [] => [[]]
  | c :: r =>
    let rest := splitOnChar sep r
    if c == sep then [] :: rest
    else
      match rest with
      | [] => [[c]]
      | h :: t => (c :: h) :: t

/-- Numeric value of a decimal digit character. -/
def dval (c : Char) : Nat := c.toNat - 48

/-- Tail of a Python integer-literal digit run: digits with single underscores
allowed between digits. -/
def digitRunTail : Str → Bool
  | [] => true
  | '_' :: c :: r => c.isDigit && digitRunTail r
  | c :: r => c.isDigit && digitRunTail r

/-- Nonempty Python digit run (no leading or trailing underscore). -/
def digitRunOk : Str → Bool
  | [] => false
  | c :: r => c.isDigit && digitRunTail r

/-- Decimal value of the digits of a run (underscores skipped). -/
def digitsValue (s : Str) : Nat :=
  (s.filter Char.isDigit).foldl (fun a c => a * 10 + dval c) 0

/-- Python int(value) on a string: optional surrounding whitespace, optional
sign, then one digit run. -/
def pyInt (s : Str) : Option Int :=
  match pyStrip s with
  | '+' :: r => if digitRunOk r then some (Int.ofNat (digitsValue r)) else none
  | '-' :: r => if digitRunOk r then some (-(Int.ofNat (digitsValue r))) else none
  | r => if digitRunOk r then some (Int.ofNat (digitsValue r)) else none

/-- Mantissa of a Python float literal: digits, digits.digits, digits. or .digits. -/
def mantissaOk (m : Str) : Bool :=
  match splitOnChar '.' m with
  | [i] => digitRunOk i
  | [i, f] => (i.isEmpty || digitRunOk i) && (f.isEmpty || digitRunOk f) && !(i.isEmpty && f.isEmpty)
  | _ => false

/-- Exponent part of a Python float literal (after the letter e). -/
def expPartOk (e : Str) : Bool :=
  match e with
  | '+' :: r => digitRunOk r
  | '-' :: r => digitRunOk r
  | r => digitRunOk r

/-- Python float(value) recognizer: shape of the accepted literals; the
numeric value is never consumed downstream, so it is not modelled. -/
def pyFloatOk (s : Str) : Bool :=
  let t := (pyStrip s).map Char.toLower
  let t1 := match t with
    | '+' :: r => r
    | '-' :: r => r
    | r => r
  if t1 == "inf".data || t1 == "infinity".data || t1 == "nan".data then true
  else
    match splitOnChar 'e' t1 with
    | [m] => mantissaOk m
    | [m, ex] => mantissaOk m && expPartOk ex
    | _ => false

/-- Does pat occur at the head of s. -/
def startsWithStr : Str → Str → Bool
  | [], _ => true
  | _ :: _, [] => false
  | p :: ps, c :: cs => p == c && startsWithStr ps cs

/-- Remove every (non-overlapping, left to right) occurrence of pat, as
Python str.replace(pat, "") does; fuel bounds the recursion. -/
def removeOcc : Nat → Str → Str → Str
  | 0, _, s => s
  | _ + 1, _, [] => []
  | fuel + 1, pat, c :: r =>
    if startsWithStr pat (c :: r) then removeOcc fuel pat (r.drop (pat.length - 1))
    else c :: removeOcc fuel pat r

/-- Python str.replace(pat, "") on a character list. -/
def pyReplaceEmpty (pat : Str) (s : Str) : Str := removeOcc s.length pat s

/-- Hexadecimal digit test. -/
def isHexDigitChar (c : Char) : Bool :=
  c.isDigit || ('a' ≤ c && c ≤ 'f') || ('A' ≤ c && c ≤ 'F')

/-- Python uuid.UUID(value) followed by str(...): strip urn:/uuid: markers,
braces and hyphens, require exactly 32 hex digits, and return the canonical
lowercase hyphenated form. -/
def pyUUID (s : Str) : Option Str :=
  let h := pyReplaceEmpty "-".data
    (pyStripChars ['\x7b', '\x7d'] (pyReplaceEmpty "uuid:".data (pyReplaceEmpty "urn:".data s)))
  if h.length == 32 && h.all isHexDigitChar then
    let l := h.map Char.toLower
    some (l.take 8 ++ '-' :: (l.drop 8).take 4 ++ '-' :: (l.drop 12).take 4 ++
      '-' :: (l.drop 16).take 4 ++ '-' :: l.drop 20)
  else none

/-! Backtracking regular-expression semantics, used for the strptime formats
and for the bracketed-integer-list pattern of parse_integer_array.  A matcher
maps an input to the list of (result, remaining input) pairs in the priority
order of the regex alternatives. -/

def ND (α : Type) : Type := Str → List (α × Str)

def ndPure {α : Type} (a : α) : ND α := fun s => [(a, s)]

def ndBind {α β : Type} (p : ND α) (f : α → ND β) : ND β :=
  fun s => (p s).flatMap (fun ar => f ar.1 ar.2)

def ndOr {α : Type} (p q : ND α) : ND α := fun s => p s ++ q s

def ndSat (pr : Char → Bool) : ND Char := fun s =>
  match s with
  | [] => []
  | c :: r => if pr c then [(c, r)] else []

def ndCh (c : Char) : ND Char := ndSat (fun x => x == c)

/-- Greedy star: prefer consuming another item, fall back to stopping. -/
def ndMany {α : Type} : Nat → ND α → ND (List α)
  | 0, _ => ndPure []
  | n + 1, p => ndOr (ndBind p (fun a => ndBind (ndMany n p) (fun l => ndPure (a :: l)))) (ndPure [])

def ndOpt {α : Type} (p : ND α) : ND (Option α) :=
  ndOr (ndBind p (fun a => ndPure (some a))) (ndPure none)

/-- First full match (whole input consumed) in priority order, as re.fullmatch
and the anchored strptime match behave. -/
def ndRunFull {α : Type} (p : ND α) (s : Str) : Option α :=
  ((p s).find? (fun ar => ar.2.isEmpty)).map (fun ar => ar.1)

def ndDigit : ND Nat := ndBind (ndSat Char.isDigit) (fun c => ndPure (dval c))

/-- Four-digit year field of strptime. -/
def ndYear4 : ND Nat :=
  ndBind ndDigit (fun a => ndBind ndDigit (fun b => ndBind ndDigit (fun c =>
    ndBind ndDigit (fun d => ndPure (a * 1000 + b * 100 + c * 10 + d)))))

/-- Month number field of strptime: 1[0-2] or 0[1-9] or [1-9]. -/
def ndMonthNum : ND Nat :=
  ndOr (ndBind (ndCh '1') (fun _ => ndBind (ndSat (fun c => c == '0' || c == '1' || c == '2'))
      (fun c => ndPure (10 + dval c))))
    (ndOr (ndBind (ndCh '0') (fun _ => ndBind (ndSat (fun c => c.isDigit && c != '0'))
        (fun c => ndPure (dval c))))
      (ndBind (ndSat (fun c => c.isDigit && c != '0')) (fun c => ndPure (dval c))))

/-- Day number field of strptime: 3[01] or [12]\d or 0[1-9] or [1-9]. -/
def ndDayNum : ND Nat :=
  ndOr (ndBind (ndCh '3') (fun _ => ndBind (ndSat (fun c => c == '0' || c == '1'))
      (fun c => ndPure (30 + dval c))))
    (ndOr (ndBind (ndSat (fun c => c == '1' || c == '2')) (fun t =>
        ndBind ndDigit (fun u => ndPure (dval t * 10 + u))))
      (ndOr (ndBind (ndCh '0') (fun _ => ndBind (ndSat (fun c => c.isDigit && c != '0'))
          (fun c => ndPure (dval c))))
        (ndBind (ndSat (fun c => c.isDigit && c != '0')) (fun c => ndPure (dval c)))))

/-- Hour field of strptime: 2[0-3] or [0-1]\d or \d. -/
def ndHourNum : ND Nat :=
  ndOr (ndBind (ndCh '2') (fun _ =>
      ndBind (ndSat (fun c => c == '0' || c == '1' || c == '2' || c == '3'))
        (fun c => ndPure (20 + dval c))))
    (ndOr (ndBind (ndSat (fun c => c == '0' || c == '1')) (fun t =>
        ndBind ndDigit (fun u => ndPure (dval t * 10 + u))))
      ndDigit)

/-- Minute and second fields of strptime: [0-5]\d or \d. -/
def ndMinSec : ND Nat :=
  ndOr (ndBind (ndSat (fun c => '0' ≤ c && c ≤ '5')) (fun t =>
      ndBind ndDigit (fun u => ndPure (dval t * 10 + u))))
    ndDigit

/-- Case-insensitive literal (strptime compiles its regex with IGNORECASE);
the argument is given in lowercase. -/
def ndLitCI : Str → ND Unit
  | [] => ndPure ()
  | c :: r => ndBind (ndSat (fun x => x.toLower == c)) (fun _ => ndLitCI r)

def ndChCI (c : Char) : ND Unit := ndBind (ndSat (fun x => x.toLower == c)) (fun _ => ndPure ())

def monthAbbrevs : List (Str × Nat) :=
  [("jan".data, 1), ("feb".data, 2), ("mar".data, 3), ("apr".data, 4),
   ("may".data, 5), ("jun".data, 6), ("jul".data, 7), ("aug".data, 8),
   ("sep".data, 9), ("oct".data, 10), ("nov".data, 11), ("dec".data, 12)]

/-- Abbreviated month name field of strptime, matched case-insensitively. -/
def ndMonthAbbr : ND Nat :=
  monthAbbrevs.foldr (fun p acc => ndOr (ndBind (ndLitCI p.1) (fun _ => ndPure p.2)) acc)
    (fun _ => [])

/-- One-or-more whitespace, the translation of a blank in a strptime format. -/
def ndWsPlus (fuel : Nat) : ND Unit :=
  ndBind (ndSat isPyWs) (fun _ => ndBind (ndMany fuel (ndSat isPyWs)) (fun _ => ndPure ()))

structure PyDateTime where
  year : Nat
  month : Nat
  day : Nat
  hour : Nat
  minute : Nat
  second : Nat
deriving DecidableEq

def isLeapYear (y : Nat) : Bool := y % 4 == 0 && (y % 100 != 0 || y % 400 == 0)

def daysInMonth (y m : Nat) : Nat :=
  if m == 2 then (if isLeapYear y then 29 else 28)
  else if m == 4 || m == 6 || m == 9 || m == 11 then 30
  else 31

/-- Validity conditions of the Python datetime constructor. -/
def validDate (y m d : Nat) : Bool :=
  1 ≤ y && y ≤ 9999 && 1 ≤ m && m ≤ 12 && 1 ≤ d && d ≤ daysInMonth y m

def mkDateTime (y m d hh mi ss : Nat) : Option PyDateTime :=
  if validDate y m d then some ⟨y, m, d, hh, mi, ss⟩ else none

/-- datetime.strptime(value, "%Y-%m-%d"): full anchored match, then the
datetime constructor check; missing time fields default to zero. -/
def strptimeYmd (s : Str) : Option PyDateTime :=
  match ndRunFull (ndBind ndYear4 (fun y => ndBind (ndCh '-') (fun _ =>
      ndBind ndMonthNum (fun m => ndBind (ndCh '-') (fun _ =>
      ndBind ndDayNum (fun d => ndPure (y, m, d))))))) s with
  | some (y, m, d) => mkDateTime y m d 0 0 0
  | none => none

/-- datetime.strptime(value, "%b %d, %Y"). -/
def strptimeBdY (s : Str) : Option PyDateTime :=
  match ndRunFull (ndBind ndMonthAbbr (fun m => ndBind (ndWsPlus s.length) (fun _ =>
      ndBind ndDayNum (fun d => ndBind (ndCh ',') (fun _ =>
      ndBind (ndWsPlus s.length) (fun _ =>
      ndBind ndYear4 (fun y => ndPure (y, m, d)))))))) s with
  | some (y, m, d) => mkDateTime y m d 0 0 0
  | none => none

/-- datetime.strptime(value, "%Y-%m-%dT%H:%M:%SZ"). -/
def strptimeIso (s : Str) : Option PyDateTime :=
  match ndRunFull (ndBind ndYear4 (fun y => ndBind (ndCh '-') (fun _ =>
      ndBind ndMonthNum (fun m => ndBind (ndCh '-') (fun _ =>
      ndBind ndDayNum (fun d => ndBind (ndChCI 't') (fun _ =>
      ndBind ndHourNum (fun hh => ndBind (ndCh ':') (fun _ =>
      ndBind ndMinSec (fun mi => ndBind (ndCh ':') (fun _ =>
      ndBind ndMinSec (fun ss => ndBind (ndChCI 'z') (fun _ =>
      ndPure (y, m, d, hh, mi, ss)))))))))))))) s with
  | some (y, m, d, hh, mi, ss) => mkDateTime y m d hh mi ss
  | none => none

/-- One repetition of the group (-?\d+\s*,\s*) of the integer-array pattern. -/
def ndArrGroup (fuel : Nat) : ND Unit :=
  ndBind (ndOpt (ndCh '-')) (fun _ => ndBind (ndSat Char.isDigit) (fun _ =>
    ndBind (ndMany fuel (ndSat Char.isDigit)) (fun _ =>
    ndBind (ndMany fuel (ndSat isPyWs)) (fun _ =>
    ndBind (ndCh ',') (fun _ =>
    ndBind (ndMany fuel (ndSat isPyWs)) (fun _ => ndPure ()))))))

/-- The whole pattern of parse_integer_array, an opening brace, \s*,
(-?\d+\s*,\s*)*, -?\d*, \s*, and a closing brace. -/
def ndArrPattern (fuel : Nat) : ND Unit :=
  ndBind (ndCh '\x7b') (fun _ =>
  ndBind (ndMany fuel (ndSat isPyWs)) (fun _ =>
  ndBind (ndMany fuel (ndArrGroup fuel)) (fun _ =>
  ndBind (ndOpt (ndCh '-')) (fun _ =>
  ndBind (ndMany fuel (ndSat Char.isDigit)) (fun _ =>
  ndBind (ndMany fuel (ndSat isPyWs)) (fun _ =>
  ndBind (ndCh '\x7d') (fun _ => ndPure ())))))))

/-- re.fullmatch of the integer-array pattern. -/
def matchArrPattern (s : Str) : Bool :=
  (ndRunFull (ndArrPattern (s.length + 1)) s).isSome

/-! The field parsers of src/run.py lines 382-463. -/

/-- Sentinel strings of the check value in (None, "", "None", "null"). -/
def strSentinels : List Str := ["".data, "None".data, "null".data]

def isSentinel : Option Str → Bool
  | none => true
  | some s => strSentinels.contains s

/-- parse_integer (run.py line 382). -/
def parse_integer : Option Str → Except Unit (Option Int)
  | none => .ok none
  | some s =>
    if strSentinels.contains s then .ok none
    else
      match pyInt s with
      | some n => .ok (some n)
      | none => .error ()

/-- parse_string (run.py line 392): str(value) is the identity on strings. -/
def parse_string : Option Str → Except Unit (Option Str)
  | none => .ok none
  | some s => if strSentinels.contains s then .ok none else .ok (some s)

/-- parse_integer_array (run.py line 402): fullmatch of the pattern against
value.strip(), then split of value.strip("\x7b\x7d") on commas and int() on
each stripped nonempty piece; a failing int() escapes as an error too. -/
def parse_integer_array : Option Str → Except Unit (Option (List Int))
  | none => .ok none
  | some s =>
    if strSentinels.contains s then .ok none
    else if !matchArrPattern (pyStrip s) then .error ()
    else
      let nums := splitOnChar ',' (pyStripChars ['\x7b', '\x7d'] s)
      let elems := (nums.map pyStrip).filter (fun n => !n.isEmpty)
      match elems.mapM pyInt with
      | some l => .ok (some l)
      | none => .error ()

/-- The format attempt loop of parse_date: first success wins, failures are
counted in errorsThrown. -/
def tryFormats : List (Str → Option PyDateTime) → Str → Nat → Option PyDateTime × Nat
  | [], _, errs => (none, errs)
  | f :: rest, v, errs =>
    match f v with
    | some d => (some d, errs)
    | none => tryFormats rest v (errs + 1)

/-- parse_date (run.py line 415): three formats in fixed order; afterwards
an error is raised only when errorsThrown equals exactly two. -/
def parse_date : Option Str → Except Unit (Option PyDateTime)
  | none => .ok none
  | some v =>
    if strSentinels.contains v then .ok none
    else
      match tryFormats [strptimeYmd, strptimeBdY, strptimeIso] v 0 with
      | (some d, _) => .ok (some d)
      | (none, errs) => if errs == 2 then .error () else .ok none

/-- parse_uuid (run.py line 433). -/
def parse_uuid : Option Str → Except Unit (Option Str)
  | none => .ok none
  | some s =>
    if strSentinels.contains s then .ok none
    else
      match pyUUID s with
      | some c => .ok (some c)
      | none => .error ()

/-- parse_float (run.py line 443); the accepted literal is kept as text since
no later step consumes its numeric value. -/
def parse_float : Option Str → Except Unit (Option Str)
  | none => .ok none
  | some s =>
    if strSentinels.contains s then .ok none
    else if pyFloatOk s then .ok (some s)
    else .error ()

/-- true_values (run.py line 14). -/
def true_values : List Str :=
  ["t".data, "true".data, "yes".data, "y".data, "1".data, "x".data, "on".data,
   "enabled".data, "active".data, "✓".data, "✔".data]

/-- false_values (run.py line 15). -/
def false_values : List Str :=
  ["f".data, "false".data, "no".data, "n".data, "0".data, "".data, "off".data,
   "disabled".data, "inactive".data, "none".data, "null".data]

/-- parse_bool (run.py line 453): note the membership tests are exact, no
lowercasing happens anywhere. -/
def parse_bool : Option Str → Except Unit Bool
  | none => .ok false
  | some s =>
    if s.isEmpty then .ok false
    else if true_values.contains s then .ok true
    else if false_values.contains s then .ok false
    else .error ()

/-! Parsed values, rows and the validation loop of DataImport.validateData
(run.py lines 289-362). -/

/-- A parsed field value: Python None, or the result of one of the parsers. -/
inductive Val where
  | vnone
  | vint (n : Int)
  | vstr (s : Str)
  | vdate (d : PyDateTime)
  | varr (l : List Int)
  | vuuid (s : Str)
  | vfloat (s : Str)
  | vbool (b : Bool)
deriving DecidableEq

/-- find_common (run.py line 364): wrap a scalar into a one-element set, take
the set of a sequence, and test intersection with the filter value list.
Python equality across types: a list intersects on its integer elements, an
integer on itself, and a boolean equals the integer 1 or 0; None, strings,
datetimes and uuid texts never equal an integer.  (A Python float can equal
an integer, but no float column is filter-configured, and the textual float
model never reaches find_common with a match.) -/
def find_common (a : Val) (vals : List Int) : Bool :=
  match a with
  | .varr l => l.any (fun x => vals.contains x)
  | .vint n => vals.contains n
  | .vbool b => vals.contains (if b then 1 else 0)
  | _ => false

/-- A stored cell of a csv row: the raw text (or the None marker), or the
parsed boolean written back by the bool branch of validateData. -/
inductive Cell where
  | str (v : Option Str)
  | bool (b : Bool)
deriving DecidableEq

/-- A csv row as a key-unique association list (a Python dict). -/
abbrev Row := List (String × Cell)

def lookupRow (row : Row) (col : String) : Option Cell :=
  match row with
  | [] => none
  | p :: r => if p.1 == col then some p.2 else lookupRow r col

/-- Assignment row[col] = cell for a key already present. -/
def setCell (row : Row) (col : String) (c : Cell) : Row :=
  row.map (fun p => if p.1 == col then (p.1, c) else p)

/-- row.pop(chr(39) ++ chr(39), None): drop the empty-named column. -/
def popEmpty (row : Row) : Row := row.filter (fun p => p.1 != "")

/-- The semantic type tags of column_names_with_types; other stands for any
tag with no registered parser (the silent default match branch). -/
inductive Ty where
  | int
  | text
  | timestamp
  | int_array
  | float
  | uuid
  | bool
  | other
deriving DecidableEq

/-- Dispatch of the match statement at run.py lines 324-342 on one cell.
The Cell.bool rows arise only after a boolean column was written back, so
with duplicate-free schema keys they are never consulted; they mirror the
Python coercions (int(True) is 1, str(True) is the text True, float(True)
is 1.0, while strptime, value.strip and uuid.UUID raise on a bool, and
parse_bool raises because a bool is in neither membership set). -/
def parseCell : Ty → Cell → Except Unit Val
  | .int, .str v =>
    match parse_integer v with
    | .ok none => .ok .vnone
    | .ok (some n) => .ok (.vint n)
    | .error e => .error e
  | .text, .str v =>
    match parse_string v with
    | .ok none => .ok .vnone
    | .ok (some s) => .ok (.vstr s)
    | .error e => .error e
  | .timestamp, .str v =>
    match parse_date v with
    | .ok none => .ok .vnone
    | .ok (some d) => .ok (.vdate d)
    | .error e => .error e
  | .int_array, .str v =>
    match parse_integer_array v with
    | .ok none => .ok .vnone
    | .ok (some l) => .ok (.varr l)
    | .error e => .error e
  | .float, .str v =>
    match parse_float v with
    | .ok none => .ok .vnone
    | .ok (some s) => .ok (.vfloat s)
    | .error e => .error e
  | .uuid, .str v =>
    match parse_uuid v with
    | .ok none => .ok .vnone
    | .ok (some s) => .ok (.vuuid s)
    | .error e => .error e
  | .bool, .str v =>
    match parse_bool v with
    | .ok b => .ok (.vbool b)
    | .error e => .error e
  | .other, _ => .ok .vnone
  | .int, .bool b => .ok (.vint (if b then 1 else 0))
  | .text, .bool b => .ok (.vstr (if b then "True".data else "False".data))
  | .timestamp, .bool _ => .error ()
  | .int_array, .bool _ => .error ()
  | .float, .bool b => .ok (.vfloat (if b then "1.0".data else "0.0".data))
  | .uuid, .bool _ => .error ()
  | .bool, .bool _ => .error ()

/-- Per-entity exclusion rules: field name to excluded integer values.  An
entity absent from DataImport.filters is modelled by the empty list, which
makes toggleFilter and the col in filter_types test both vacuous. -/
abbrev FilterCfg := List (String × List Int)

/-- The test filter_active and col in filter_types followed by find_common
(run.py lines 344-349). -/
def filterHit (fl : FilterCfg) (col : String) (pv : Val) : Bool :=
  match (fl.find? (fun p => p.1 == col)).map (fun p => p.2) with
  | none => false
  | some vals => find_common pv vals

/-- current_id in (None, chr(39) ++ chr(39), None-text, null-text): a parsed
boolean cell equals none of the four sentinels in Python. -/
def isSentinelCell : Cell → Bool
  | .str v => isSentinel v
  | .bool _ => false

/-- Outcome of validateData for one row: crashed models the uncaught
KeyError when the id key is absent, skipped the silent continue on a
sentinel id, rejectedParse a parser exception (bad data or a missing
column), rejectedFilter the raise after found_match, and accepted carries
the row appended to valid_rows. -/
inductive RowOutcome where
  | crashed
  | skipped
  | rejectedParse
  | rejectedFilter
  | accepted (r : Row)
deriving DecidableEq

def RowOutcome.isAccepted : RowOutcome → Bool
  | .accepted _ => true
  | _ => false

/-- The write back row[col] = bool_val of the bool branch (run.py line 339);
for every other type the row is left alone. -/
def boolWriteBack (row : Row) (col : String) (ty : Ty) (pv : Val) : Row :=
  match ty, pv with
  | .bool, .vbool b => setCell row col (.bool b)
  | _, _ => row

/-- The for col in column_names loop (run.py lines 318-352). -/
def loopCols : List (String × Ty) → FilterCfg → Row → RowOutcome
  | [], _, row => .accepted (popEmpty row)
  | (col, ty) :: rest, fl, row =>
    match lookupRow row col with
    | none => .rejectedParse
    | some cell =>
      match parseCell ty cell with
      | .error _ => .rejectedParse
      | .ok pv =>
        if filterHit fl col pv then .rejectedFilter
        else loopCols rest fl (boolWriteBack row col ty pv)

/-- Validation of one row (run.py lines 309-355). -/
def validateRow (schema : List (String × Ty)) (fl : FilterCfg) (row : Row) : RowOutcome :=
  match lookupRow row "id" with
  | none => .crashed
  | some idCell => if isSentinelCell idCell then .skipped else loopCols schema fl row

/-- The valid_rows list of one sheet, in input order. -/
def validRows (schema : List (String × Ty)) (fl : FilterCfg) (rows : List Row) : List Row :=
  rows.filterMap (fun row =>
    match validateRow schema fl row with
    | .accepted r => some r
    | _ => none)

/-- The invalid_rows list of one sheet (kept only for its count). -/
def invalidRows (schema : List (String × Ty)) (fl : FilterCfg) (rows : List Row) : List Row :=
  rows.filter (fun row =>
    match validateRow schema fl row with
    | .rejectedParse => true
    | .rejectedFilter => true
    | _ => false)

/-- DataImport.filters for the games endpoint (run.py lines 20-25). -/
def games_filters : FilterCfg := [("themes", [42]), ("game_type", [5])]

/-- column_names_with_types for games (run.py lines 28-89). -/
def games_columns : List (String × Ty) :=
  [("id", .int), ("name", .text), ("slug", .text), ("url", .text),
   ("created_at", .timestamp), ("updated_at", .timestamp), ("summary", .text),
   ("storyline", .text), ("collection", .int), ("franchise", .int),
   ("franchises", .int_array), ("hypes", .int), ("follows", .int),
   ("rating", .float), ("aggregated_rating", .float),
   ("aggregated_rating_count", .int), ("total_rating", .float),
   ("total_rating_count", .int), ("rating_count", .int), ("parent_game", .int),
   ("version_parent", .int), ("version_title", .text),
   ("similar_games", .int_array), ("tags", .int_array),
   ("game_engines", .int_array), ("category", .int),
   ("player_perspectives", .int_array), ("game_modes", .int_array),
   ("keywords", .int_array), ("themes", .int_array), ("genres", .int_array),
   ("expansions", .int_array), ("dlcs", .int_array), ("bundles", .int_array),
   ("standalone_expansions", .int_array), ("first_release_date", .timestamp),
   ("status", .int), ("platforms", .int_array), ("release_dates", .int_array),
   ("alternative_names", .int_array), ("screenshots", .int_array),
   ("videos", .int_array), ("cover", .int), ("websites", .int_array),
   ("external_games", .int_array), ("multiplayer_modes", .int_array),
   ("involved_companies", .int_array), ("age_ratings", .int_array),
   ("artworks", .int_array), ("checksum", .uuid), ("remakes", .int_array),
   ("remasters", .int_array), ("expanded_games", .int_array),
   ("ports", .int_array), ("forks", .int_array),
   ("language_supports", .int_array), ("game_localizations", .int_array),
   ("collections", .int_array), ("game_status", .int), ("game_type", .int)]

/-- column_names_with_types for covers (run.py lines 90-101). -/
def covers_columns : List (String × Ty) :=
  [("id", .int), ("url", .text), ("image_id", .text), ("width", .int),
   ("height", .int), ("alpha_channel", .bool), ("animated", .bool),
   ("game", .int), ("checksum", .uuid), ("game_localization", .int)]

/-! The upsert writer DataImport.upsert_rows (run.py lines 234-255): INSERT
with ON CONFLICT (id) DO UPDATE SET of every non-identity column, guarded by
WHERE stored.updated_at < EXCLUDED.updated_at exactly when updated_at is
among the column names.  The store is modelled as a map from id to the
stored row; timestamps are modelled as integer time points, and the SQL
three-valued comparison makes the guard false when either side is NULL.
The VALUES rows of one call are merged in order against the store, which is
the row-by-row conflict evaluation of the multi-row insert; page_size only
bounds statement size. -/

structure DbRow where
  id : Int
  updated_at : Option Int
  rest : List (Option Str)
deriving DecidableEq

abbrev Store := Int → Option DbRow

/-- stored.updated_at < EXCLUDED.updated_at under SQL NULL semantics. -/
def sqlLt : Option Int → Option Int → Bool
  | some a, some b => decide (a < b)
  | _, _ => false

/-- Conflict resolution for one incoming row against one stored slot. -/
def mergeCell (useUpdated : Bool) (c : Option DbRow) (r : DbRow) : Option DbRow :=
  match c with
  | none => some r
  | some old =>
    if useUpdated then (if sqlLt old.updated_at r.updated_at then some r else some old)
    else some r

/-- One VALUES row applied to the store. -/
def upsertRow (useUpdated : Bool) (st : Store) (r : DbRow) : Store :=
  fun i => if i = r.id then mergeCell useUpdated (st r.id) r else st i

/-- upsert_rows: the whole accepted set merged into the store. -/
def upsert_rows (useUpdated : Bool) (st : Store) (rows : List DbRow) : Store :=
  rows.foldl (upsertRow useUpdated) st

/-- The store with the slot of r.id overwritten by r. -/
def updateAt (st : Store) (r : DbRow) : Store :=
  fun i => if i = r.id then some r else st i

/-! Helper lemmas about the upsert writer. -/

theorem mergeCell_false (c : Option DbRow) (r : DbRow) : mergeCell false c r = some r := by
  cases c <;> rfl

theorem sqlLt_irrefl (x : Option Int) : sqlLt x x = false := by
  cases x <;> simp [sqlLt]

theorem sqlLt_step {x y v : Option Int} (h1 : sqlLt x y = true) (h2 : sqlLt x v = false) :
    sqlLt y v = false := by
  cases x <;> cases y <;> cases v <;> simp_all [sqlLt]
  omega

theorem mergeCell_true_some (c : Option DbRow) (r : DbRow) :
    ∃ m, mergeCell true c r = some m ∧ sqlLt m.updated_at r.updated_at = false := by
  cases c with
  | none => exact ⟨r, rfl, sqlLt_irrefl _⟩
  | some old =>
    by_cases h : sqlLt old.updated_at r.updated_at = true
    · exact ⟨r, by simp [mergeCell, h], sqlLt_irrefl _⟩
    · exact ⟨old, by simp [mergeCell, h], by simpa using h⟩

theorem mergeCell_true_mono (m r m1 : DbRow)
    (hm1 : mergeCell true (some m) r = some m1) :
    ∀ v, sqlLt m.updated_at v = false → sqlLt m1.updated_at v = false := by
  intro v hv
  by_cases h : sqlLt m.updated_at r.updated_at = true
  · have hr : mergeCell true (some m) r = some r := by simp [mergeCell, h]
    rw [hm1] at hr
    obtain rfl := Option.some.inj hr
    exact sqlLt_step h hv
  · have hf : sqlLt m.updated_at r.updated_at = false := by
      cases hb : sqlLt m.updated_at r.updated_at
      · rfl
      · exact absurd hb h
    have hr : mergeCell true (some m) r = some m := by simp [mergeCell, hf]
    rw [hm1] at hr
    obtain rfl := Option.some.inj hr
    exact hv

theorem foldl_merge_true_inv (l : List DbRow) :
    ∀ m : DbRow, ∃ m', List.foldl (mergeCell true) (some m) l = some m' ∧
      (∀ r ∈ l, sqlLt m'.updated_at r.updated_at = false) ∧
      (∀ v, sqlLt m.updated_at v = false → sqlLt m'.updated_at v = false) := by
  induction l with
  | nil => exact fun m => ⟨m, rfl, by simp, fun v h => h⟩
  | cons r t ih =>
    intro m
    obtain ⟨m1, hm1, hm1r⟩ := mergeCell_true_some (some m) r
    obtain ⟨m', hfold, hall, hmono⟩ := ih m1
    have hstep : ∀ v, sqlLt m.updated_at v = false → sqlLt m1.updated_at v = false :=
      mergeCell_true_mono m r m1 hm1
    refine ⟨m', ?_, ?_, ?_⟩
    · simpa [List.foldl, hm1] using hfold
    · intro s hs
      rcases List.mem_cons.mp hs with h | h
      · exact h ▸ hmono _ hm1r
      · exact hall s h
    · exact fun v hv => hmono v (hstep v hv)

theorem foldl_merge_absorb (l : List DbRow) :
    ∀ m : DbRow, (∀ r ∈ l, sqlLt m.updated_at r.updated_at = false) →
    List.foldl (mergeCell true) (some m) l = some m := by
  induction l with
  | nil => exact fun m _ => rfl
  | cons r t ih =>
    intro m h
    have hr : mergeCell true (some m) r = some m := by
      simp [mergeCell, h r (List.mem_cons_self r t)]
    simp only [List.foldl, hr]
    exact ih m (fun s hs => h s (List.mem_cons_of_mem r hs))

theorem cell_idem (u : Bool) (c : Option DbRow) (l : List DbRow) :
    List.foldl (mergeCell u) (List.foldl (mergeCell u) c l) l = List.foldl (mergeCell u) c l := by
  cases u with
  | false =>
    cases l with
    | nil => rfl
    | cons r t => simp [List.foldl, mergeCell_false]
  | true =>
    cases l with
    | nil => rfl
    | cons r t =>
      obtain ⟨m0, hm0, hm0r⟩ := mergeCell_true_some c r
      obtain ⟨m', hfold, hall, hmono⟩ := foldl_merge_true_inv t m0
      have hL : List.foldl (mergeCell true) c (r :: t) = some m' := by
        simp only [List.foldl, hm0]; exact hfold
      rw [hL]
      exact foldl_merge_absorb (r :: t) m' (by
        intro s hs
        rcases List.mem_cons.mp hs with h | h
        · exact h ▸ hmono _ hm0r
        · exact hall s h)

theorem upsert_rows_apply (u : Bool) (rows : List DbRow) :
    ∀ (st : Store) (i : Int),
      upsert_rows u st rows i =
        List.foldl (mergeCell u) (st i) (rows.filter (fun r => r.id == i)) := by
  induction rows with
  | nil => intro st i; rfl
  | cons r t ih =>
    intro st i
    show upsert_rows u (upsertRow u st r) t i = _
    rw [ih]
    by_cases hi : r.id = i
    · subst hi
      have h1 : (upsertRow u st r) r.id = mergeCell u (st r.id) r := by
        simp [upsertRow]
      rw [h1]
      simp [List.filter_cons, List.foldl_cons]
    · have h1 : (upsertRow u st r) i = st i := by
        simp [upsertRow, Ne.symm hi]
      rw [h1]
      have h2 : (r.id == i) = false := by simp [hi]
      simp [List.filter_cons, h2]

/-- Claim C1 (confirmed): when the entity schema carries an updated_at column
(useUpdated true), a conflicting incoming row overwrites the stored row
exactly when its updated_at is strictly greater than the stored one,
otherwise the store is unchanged; without an updated_at column the incoming
row always overwrites on conflict. -/
theorem C1_conflict_gate (st : Store) (r old : DbRow) (a b : Int)
    (hid : st r.id = some old) (ha : old.updated_at = some a) (hb : r.updated_at = some b) :
    upsertRow true st r = (if a < b then updateAt st r else st) ∧
    upsertRow false st r = updateAt st r := by
  constructor
  · funext i
    by_cases hi : i = r.id
    · subst hi
      by_cases hab : a < b
      · simp [upsertRow, mergeCell, hid, sqlLt, ha, hb, hab, updateAt]
      · simp [upsertRow, mergeCell, hid, sqlLt, ha, hb, hab, updateAt]
    · by_cases hab : a < b
      · simp [upsertRow, hi, hab, updateAt]
      · simp [upsertRow, hi, hab, updateAt]
  · funext i
    by_cases hi : i = r.id
    · subst hi; simp [upsertRow, mergeCell_false, hid, updateAt]
    · simp [upsertRow, hi, updateAt]

theorem C1_conflict_gate_witness :
    (fun i => if i = (1 : Int) then some (⟨1, some 0, []⟩ : DbRow) else none)
        ((⟨1, some 5, []⟩ : DbRow).id) = some (⟨1, some 0, []⟩ : DbRow) ∧
    (⟨1, some 0, []⟩ : DbRow).updated_at = some 0 ∧
    (⟨1, some 5, []⟩ : DbRow).updated_at = some 5 ∧
    (upsertRow true (fun i => if i = (1 : Int) then some (⟨1, some 0, []⟩ : DbRow) else none)
        ⟨1, some 5, []⟩ =
      (if (0 : Int) < 5 then
        updateAt (fun i => if i = (1 : Int) then some (⟨1, some 0, []⟩ : DbRow) else none)
          ⟨1, some 5, []⟩
      else (fun i => if i = (1 : Int) then some (⟨1, some 0, []⟩ : DbRow) else none)) ∧
    upsertRow false (fun i => if i = (1 : Int) then some (⟨1, some 0, []⟩ : DbRow) else none)
        ⟨1, some 5, []⟩ =
      updateAt (fun i => if i = (1 : Int) then some (⟨1, some 0, []⟩ : DbRow) else none)
        ⟨1, some 5, []⟩) :=
  ⟨rfl, rfl, rfl, C1_conflict_gate _ _ _ 0 5 rfl rfl rfl⟩

/-- Claim C2 (confirmed): the upsert is idempotent; applying the same
accepted row set twice leaves the store exactly as applying it once, both
with and without the updated_at conflict gate. -/
theorem C2_upsert_idempotent (u : Bool) (st : Store) (rows : List DbRow) :
    upsert_rows u (upsert_rows u st rows) rows = upsert_rows u st rows := by
  funext i
  simp only [upsert_rows_apply]
  exact cell_idem u (st i) _

/-- Claim C3 (confirmed): for a non-sentinel input on which all three
strptime formats fail, errorsThrown reaches three, the equals-two rejection
test does not fire, and parse_date silently yields absent instead of
raising; when at least one format matches, the first matching format in the
fixed priority order gives the parsed value. -/
theorem C3_parse_date_lenient (v : Str) (hs : strSentinels.contains v = false) :
    (strptimeYmd v = none → strptimeBdY v = none → strptimeIso v = none →
      parse_date (some v) = .ok none) ∧
    (∀ d, strptimeYmd v = some d → parse_date (some v) = .ok (some d)) ∧
    (∀ d, strptimeYmd v = none → strptimeBdY v = some d →
      parse_date (some v) = .ok (some d)) ∧
    (∀ d, strptimeYmd v = none → strptimeBdY v = none → strptimeIso v = some d →
      parse_date (some v) = .ok (some d)) := by
  have hs' : v ∉ strSentinels := by simpa using hs
  refine ⟨?_, ?_, ?_, ?_⟩
  · intro h1 h2 h3
    simp [parse_date, hs', tryFormats, h1, h2, h3]
  · intro d h1
    simp [parse_date, hs', tryFormats, h1]
  · intro d h1 h2
    simp [parse_date, hs', tryFormats, h1, h2]
  · intro d h1 h2 h3
    simp [parse_date, hs', tryFormats, h1, h2, h3]

theorem C3_parse_date_lenient_witness :
    strSentinels.contains "2024-13-77x".data = false ∧
    strptimeYmd "2024-13-77x".data = none ∧
    strptimeBdY "2024-13-77x".data = none ∧
    strptimeIso "2024-13-77x".data = none ∧
    parse_date (some "2024-13-77x".data) = .ok none :=
  ⟨by decide, by decide, by decide, by decide,
    (C3_parse_date_lenient "2024-13-77x".data (by decide)).1 (by decide) (by decide) (by decide)⟩

/-- Claim C4 counterexample: the Boolean parser raises a parse error on the
sentinel text None instead of yielding false, because its false set only
holds the lowercase text none and no lowercasing is applied. -/
theorem C4_counterexample : parse_bool (some "None".data) = .error () := by decide

/-- Claim C4 (amended): every sentinel input yields absent without error for
every semantic type except Boolean; for Boolean, the null marker, the empty
string and the text null yield false, while the literal text None raises a
parse error. -/
theorem C4_sentinels_absent (v : Option Str) (hv : isSentinel v = true) :
    parse_integer v = .ok none ∧ parse_string v = .ok none ∧
    parse_date v = .ok none ∧ parse_integer_array v = .ok none ∧
    parse_float v = .ok none ∧ parse_uuid v = .ok none ∧
    parse_bool none = .ok false ∧ parse_bool (some "".data) = .ok false ∧
    parse_bool (some "null".data) = .ok false ∧
    parse_bool (some "None".data) = .error () := by
  cases v with
  | none => exact ⟨rfl, rfl, rfl, rfl, rfl, rfl, by decide, by decide, by decide, by decide⟩
  | some s =>
    have hv' : s ∈ strSentinels := by simpa [isSentinel] using hv
    exact ⟨by simp [parse_integer, hv'], by simp [parse_string, hv'],
      by simp [parse_date, hv'], by simp [parse_integer_array, hv'],
      by simp [parse_float, hv'], by simp [parse_uuid, hv'],
      by decide, by decide, by decide, by decide⟩

theorem C4_sentinels_absent_witness :
    isSentinel (some "None".data) = true ∧
    (parse_integer (some "None".data) = .ok none ∧
     parse_string (some "None".data) = .ok none ∧
     parse_date (some "None".data) = .ok none ∧
     parse_integer_array (some "None".data) = .ok none ∧
     parse_float (some "None".data) = .ok none ∧
     parse_uuid (some "None".data) = .ok none ∧
     parse_bool none = .ok false ∧ parse_bool (some "".data) = .ok false ∧
     parse_bool (some "null".data) = .ok false ∧
     parse_bool (some "None".data) = .error ()) :=
  ⟨by decide, C4_sentinels_absent (some "None".data) (by decide)⟩

/-- Claim C5 counterexample: the input with a trailing comma before the
closing brace deviates from the claimed grammar (comma-separated signed
integers with no trailing comma), yet the parser accepts it and returns the
integers instead of raising a parse error. -/
theorem C5_counterexample :
    parse_integer_array (some "\x7b1,2,\x7d".data) = .ok (some [1, 2]) := by decide

/-- Claim C5 (amended): a non-sentinel input whose whitespace-stripped form
fails the pattern (an opening brace, optionally space-padded comma-separated
signed integers, an optional empty last element so a trailing comma is
allowed, and a closing brace) raises a parse error; the empty braces yield
the empty sequence, a proper list yields its integers, an unterminated list
raises, a list with a trailing comma is accepted, and a bare minus sign as
last element passes the pattern but still raises when converted to an
integer. -/
theorem C5_array_grammar :
    (∀ s : Str, strSentinels.contains s = false → matchArrPattern (pyStrip s) = false →
      parse_integer_array (some s) = .error ()) ∧
    parse_integer_array (some "\x7b\x7d".data) = .ok (some []) ∧
    parse_integer_array (some "\x7b1, 2, 3\x7d".data) = .ok (some [1, 2, 3]) ∧
    parse_integer_array (some "\x7b1,2,".data) = .error () ∧
    parse_integer_array (some "\x7b1,2,\x7d".data) = .ok (some [1, 2]) ∧
    parse_integer_array (some "\x7b-\x7d".data) = .error () := by
  refine ⟨?_, by decide, by decide, by decide, by decide, by decide⟩
  intro s hs hm
  have hs' : s ∉ strSentinels := by simpa using hs
  simp [parse_integer_array, hs', hm]

theorem C5_array_grammar_witness :
    strSentinels.contains "nonsense".data = false ∧
    matchArrPattern (pyStrip "nonsense".data) = false ∧
    parse_integer_array (some "nonsense".data) = .error () :=
  ⟨by decide, by decide, C5_array_grammar.1 "nonsense".data (by decide) (by decide)⟩

/-- Claim C6 counterexample: the uppercase input T lowercases to t, a member
of the true set, so the claimed case-insensitive parser would return true;
the parser instead raises a parse error because its membership tests are
exact. -/
theorem C6_counterexample : parse_bool (some "T".data) = .error () := by decide

/-- Claim C6 (amended): the Boolean parser decides membership exactly (case
sensitively): an input in the true set returns true, an input in the false
set returns false, and an input in neither set raises a parse error. -/
theorem C6_bool_membership (s : Str) :
    (parse_bool (some s) = .ok true ↔ s ∈ true_values) ∧
    (parse_bool (some s) = .ok false ↔ s ∈ false_values) ∧
    (parse_bool (some s) = .error () ↔ (s ∉ true_values ∧ s ∉ false_values)) := by
  have hdisj : ∀ x ∈ true_values, x ∉ false_values := by decide
  by_cases he : s = []
  · subst he
    refine ⟨?_, ?_, ?_⟩ <;> simp [parse_bool] <;> decide
  · have he' : s.isEmpty = false := by simpa [List.isEmpty_iff] using he
    by_cases ht : s ∈ true_values
    · have ht' : true_values.contains s = true := by simpa using ht
      have hf : s ∉ false_values := hdisj s ht
      refine ⟨?_, ?_, ?_⟩ <;> simp [parse_bool, he', ht', ht, hf]
    · have ht' : true_values.contains s = false := by simpa using ht
      by_cases hf : s ∈ false_values
      · have hf' : false_values.contains s = true := by simpa using hf
        refine ⟨?_, ?_, ?_⟩ <;> simp [parse_bool, he', ht', ht, hf', hf]
      · have hf' : false_values.contains s = false := by simpa using hf
        refine ⟨?_, ?_, ?_⟩ <;> simp [parse_bool, he', ht', ht, hf', hf]

/-! Helper lemmas about row lookup, write back and the validation loop. -/

theorem lookupRow_setCell_self : ∀ (row : Row) (col : String) (c0 c : Cell),
    lookupRow row col = some c0 → lookupRow (setCell row col c) col = some c := by
  intro row
  induction row with
  | nil => intro col c0 c h; simp [lookupRow] at h
  | cons p t ih =>
    intro col c0 c h
    by_cases hp : (p.1 == col) = true
    · simp [lookupRow, setCell, hp]
    · have e1 : setCell (p :: t) col c = p :: setCell t col c := by
        simp only [setCell, List.map_cons]
        rw [if_neg hp]
      have e2 : lookupRow (p :: setCell t col c) col = lookupRow (setCell t col c) col := by
        simp [lookupRow, hp]
      have h' : lookupRow t col = some c0 := by
        simpa [lookupRow, hp] using h
      rw [e1, e2]
      exact ih col c0 c h'

theorem lookupRow_setCell_ne : ∀ (row : Row) (col col' : String) (c : Cell), col ≠ col' →
    lookupRow (setCell row col c) col' = lookupRow row col' := by
  intro row
  induction row with
  | nil => intro col col' c _; rfl
  | cons p t ih =>
    intro col col' c h
    by_cases hp : (p.1 == col) = true
    · have hp1 : p.1 = col := by simpa using hp
      have hp2 : (p.1 == col') = false := by
        simp only [beq_eq_false_iff_ne, ne_eq, hp1]
        exact h
      have e1 : setCell (p :: t) col c = (p.1, c) :: setCell t col c := by
        simp only [setCell, List.map_cons]
        rw [if_pos hp]
      rw [e1]
      have e2 : lookupRow ((p.1, c) :: setCell t col c) col' = lookupRow (setCell t col c) col' := by
        simp [lookupRow, hp2]
      have e3 : lookupRow (p :: t) col' = lookupRow t col' := by
        simp [lookupRow, hp2]
      rw [e2, e3]
      exact ih col col' c h
    · have e1 : setCell (p :: t) col c = p :: setCell t col c := by
        simp only [setCell, List.map_cons]
        rw [if_neg hp]
      rw [e1]
      by_cases hq : (p.1 == col') = true
      · simp [lookupRow, hq]
      · have e2 : lookupRow (p :: setCell t col c) col' = lookupRow (setCell t col c) col' := by
          simp [lookupRow, hq]
        have e3 : lookupRow (p :: t) col' = lookupRow t col' := by
          simp [lookupRow, hq]
        rw [e2, e3]
        exact ih col col' c h

theorem lookupRow_popEmpty : ∀ (row : Row) (col : String), col ≠ "" →
    lookupRow (popEmpty row) col = lookupRow row col := by
  intro row
  induction row with
  | nil => intro col _; rfl
  | cons p t ih =>
    intro col h
    by_cases hp : (p.1 != "") = true
    · have e1 : popEmpty (p :: t) = p :: popEmpty t := by
        simp only [popEmpty, List.filter_cons]
        rw [if_pos hp]
      rw [e1]
      by_cases hq : (p.1 == col) = true
      · simp [lookupRow, hq]
      · have e2 : lookupRow (p :: popEmpty t) col = lookupRow (popEmpty t) col := by
          simp [lookupRow, hq]
        have e3 : lookupRow (p :: t) col = lookupRow t col := by
          simp [lookupRow, hq]
        rw [e2, e3]
        exact ih col h
    · have hp1 : p.1 = "" := by
        have hh := hp
        simp only [bne_iff_ne, ne_eq, Decidable.not_not] at hh
        exact hh
      have hq : (p.1 == col) = false := by
        simp only [beq_eq_false_iff_ne, ne_eq, hp1]
        exact fun hh => h hh.symm
      have hp2 : (p.1 != "") = false := by simp [hp1]
      have e1 : popEmpty (p :: t) = popEmpty t := by
        simp only [popEmpty, List.filter_cons]
        rw [if_neg (by simp [hp2])]
      have e3 : lookupRow (p :: t) col = lookupRow t col := by
        simp [lookupRow, hq]
      rw [e1, e3]
      exact ih col h

theorem boolWriteBack_lookup_ne (row : Row) (c col : String) (t : Ty) (pv : Val)
    (h : c ≠ col) :
    lookupRow (boolWriteBack row c t pv) col = lookupRow row col := by
  cases t <;> cases pv <;> first | rfl | exact lookupRow_setCell_ne row c col _ h

theorem boolWriteBack_not_bool (row : Row) (c : String) (t : Ty) (pv : Val)
    (h : t ≠ Ty.bool) : boolWriteBack row c t pv = row := by
  cases t <;> cases pv <;> first | rfl | exact absurd rfl h

theorem parseCell_bool_ok (cell : Cell) (pv : Val) (h : parseCell Ty.bool cell = .ok pv) :
    ∃ v b, cell = .str v ∧ parse_bool v = .ok b ∧ pv = .vbool b := by
  cases cell with
  | str v =>
    cases hb : parse_bool v with
    | ok b =>
      refine ⟨v, b, rfl, hb, ?_⟩
      have hh : parseCell Ty.bool (.str v) = .ok (.vbool b) := by simp [parseCell, hb]
      rw [hh] at h
      exact (Except.ok.inj h).symm
    | error e =>
      have hh : parseCell Ty.bool (.str v) = .error e := by simp [parseCell, hb]
      rw [hh] at h
      exact absurd h (by simp)
  | bool b => exact absurd h (by simp [parseCell])

theorem parseCell_bool_ne_vnone (cell : Cell) : parseCell Ty.bool cell ≠ .ok .vnone := by
  cases cell with
  | str v => cases hb : parse_bool v <;> simp [parseCell, hb]
  | bool b => simp [parseCell]

theorem loopCols_preserve : ∀ (schema : List (String × Ty)) (fl : FilterCfg)
    (row row' : Row) (col : String), loopCols schema fl row = .accepted row' →
    col ≠ "" → (col, Ty.bool) ∉ schema → lookupRow row' col = lookupRow row col := by
  intro schema
  induction schema with
  | nil =>
    intro fl row row' col hacc hne _
    have h1 : popEmpty row = row' := by simpa [loopCols] using hacc
    rw [← h1]
    exact lookupRow_popEmpty row col hne
  | cons e rest ih =>
    intro fl row row' col hacc hne hnb
    obtain ⟨c, t⟩ := e
    simp only [loopCols] at hacc
    split at hacc
    · exact absurd hacc (by simp)
    · next cell hlk =>
      split at hacc
      · exact absurd hacc (by simp)
      · next pv hpc =>
        split at hacc
        · exact absurd hacc (by simp)
        · next hfh =>
          have hrest : (col, Ty.bool) ∉ rest := fun hm => hnb (List.mem_cons_of_mem _ hm)
          have h1 := ih fl (boolWriteBack row c t pv) row' col hacc hne hrest
          by_cases hb : t = Ty.bool
          · subst hb
            have hcc : c ≠ col := by
              intro hcc
              subst hcc
              exact hnb (List.mem_cons_self _ _)
            rw [h1, boolWriteBack_lookup_ne row c col Ty.bool pv hcc]
          · rw [h1, boolWriteBack_not_bool row c t pv hb]

theorem validateRow_accepted (schema : List (String × Ty)) (fl : FilterCfg)
    (row row' : Row) (h : validateRow schema fl row = .accepted row') :
    loopCols schema fl row = .accepted row' := by
  unfold validateRow at h
  split at h
  · exact absurd h (by simp)
  · split at h
    · exact absurd h (by simp)
    · exact h

theorem loopCols_outcomes : ∀ (schema : List (String × Ty)) (fl : FilterCfg) (row : Row),
    loopCols schema fl row = .rejectedParse ∨ loopCols schema fl row = .rejectedFilter ∨
    ∃ r', loopCols schema fl row = .accepted r' := by
  intro schema
  induction schema with
  | nil => intro fl row; exact Or.inr (Or.inr ⟨popEmpty row, rfl⟩)
  | cons e rest ih =>
    intro fl row
    obtain ⟨c, t⟩ := e
    simp only [loopCols]
    split
    · exact Or.inl rfl
    · split
      · exact Or.inl rfl
      · split
        · exact Or.inr (Or.inl rfl)
        · exact ih fl _

theorem loopCols_accepted_entry : ∀ (schema : List (String × Ty)) (fl : FilterCfg)
    (row row' : Row), loopCols schema fl row = .accepted row' →
    (∀ e ∈ schema, e.2 ≠ Ty.bool) →
    ∀ col ty, (col, ty) ∈ schema →
      ∃ cell pv, lookupRow row col = some cell ∧ parseCell ty cell = .ok pv ∧
        filterHit fl col pv = false := by
  intro schema
  induction schema with
  | nil => intro fl row row' _ _ col ty hmem; exact absurd hmem (List.not_mem_nil _)
  | cons e rest ih =>
    intro fl row row' hacc hnb col ty hmem
    obtain ⟨c, t⟩ := e
    simp only [loopCols] at hacc
    split at hacc
    · exact absurd hacc (by simp)
    · next cell hlk =>
      split at hacc
      · exact absurd hacc (by simp)
      · next pv hpc =>
        split at hacc
        · exact absurd hacc (by simp)
        · next hfh =>
          have hrow1 : boolWriteBack row c t pv = row :=
            boolWriteBack_not_bool row c t pv (hnb (c, t) (List.mem_cons_self _ _))
          rw [hrow1] at hacc
          rcases List.mem_cons.mp hmem with heq | hmem2
          · injection heq with h1 h2
            subst h1
            subst h2
            exact ⟨cell, pv, hlk, hpc, by simpa using hfh⟩
          · exact ih fl row row' hacc (fun e he => hnb e (List.mem_cons_of_mem _ he)) col ty hmem2

theorem loopCols_types : ∀ (schema : List (String × Ty)) (fl : FilterCfg) (row row' : Row),
    (schema.map Prod.fst).Nodup → loopCols schema fl row = .accepted row' →
    ∀ col ty, (col, ty) ∈ schema → col ≠ "" →
      (ty ≠ Ty.bool → lookupRow row' col = lookupRow row col) ∧
      (ty = Ty.bool → ∃ v b, lookupRow row col = some (.str v) ∧ parse_bool v = .ok b ∧
        lookupRow row' col = some (.bool b)) := by
  intro schema
  induction schema with
  | nil => intro fl row row' _ _ col ty hmem; exact absurd hmem (List.not_mem_nil _)
  | cons e rest ih =>
    intro fl row row' hnd hacc col ty hmem hne
    obtain ⟨c, t⟩ := e
    have hndc : c ∉ rest.map Prod.fst := by
      have hh := hnd
      simp only [List.map_cons] at hh
      exact (List.nodup_cons.mp hh).1
    have hndr : (rest.map Prod.fst).Nodup := by
      have hh := hnd
      simp only [List.map_cons] at hh
      exact (List.nodup_cons.mp hh).2
    simp only [loopCols] at hacc
    split at hacc
    · exact absurd hacc (by simp)
    · next cell hlk =>
      split at hacc
      · exact absurd hacc (by simp)
      · next pv hpc =>
        split at hacc
        · exact absurd hacc (by simp)
        · next hfh =>
          rcases List.mem_cons.mp hmem with heq | hmem2
          · injection heq with h1 h2
            subst h1
            subst h2
            have hrestnb : (col, Ty.bool) ∉ rest := by
              intro hm
              exact hndc (List.mem_map_of_mem Prod.fst hm)
            constructor
            · intro hb
              rw [boolWriteBack_not_bool row col ty pv hb] at hacc
              exact loopCols_preserve rest fl row row' col hacc hne hrestnb
            · intro hb
              subst hb
              obtain ⟨v, b, hcell, hpb, hpv⟩ := parseCell_bool_ok cell pv hpc
              subst hpv
              have hrow1 : boolWriteBack row col Ty.bool (.vbool b) = setCell row col (.bool b) := rfl
              rw [hrow1] at hacc
              refine ⟨v, b, hcell ▸ hlk, hpb, ?_⟩
              have hpres := loopCols_preserve rest fl (setCell row col (.bool b)) row' col hacc hne hrestnb
              rw [hpres]
              exact lookupRow_setCell_self row col cell (.bool b) hlk
          · have hcol : c ≠ col := by
              intro hcc
              subst hcc
              exact hndc (List.mem_map_of_mem Prod.fst hmem2)
            have ihr := ih fl (boolWriteBack row c t pv) row' hndr hacc col ty hmem2 hne
            have hbk : lookupRow (boolWriteBack row c t pv) col = lookupRow row col :=
              boolWriteBack_lookup_ne row c col t pv hcol
            constructor
            · intro hb
              rw [ihr.1 hb, hbk]
            · intro hb
              obtain ⟨v, b, h1, h2, h3⟩ := ihr.2 hb
              exact ⟨v, b, hbk ▸ h1, h2, h3⟩

/-- True when a filter-configured field of the row is absent after parsing
(or not present at all); fields without a filter rule are vacuously fine. -/
def absentWhenFiltered (fl : FilterCfg) (row : Row) (e : String × Ty) : Bool :=
  if (fl.find? (fun p => p.1 == e.1)).isSome then
    match lookupRow row e.1 with
    | none => true
    | some cell => decide (parseCell e.2 cell = .ok .vnone)
  else true

theorem loopCols_absent_no_filter : ∀ (schema : List (String × Ty)) (fl : FilterCfg)
    (row : Row), (∀ e ∈ schema, absentWhenFiltered fl row e = true) →
    loopCols schema fl row ≠ .rejectedFilter := by
  intro schema
  induction schema with
  | nil => intro fl row _; simp [loopCols]
  | cons e rest ih =>
    intro fl row hyp
    obtain ⟨c, t⟩ := e
    simp only [loopCols]
    split
    · simp
    · next cell hlk =>
      split
      · simp
      · next pv hpc =>
        have hfh : filterHit fl c pv = false := by
          by_cases hf : (fl.find? (fun p => p.1 == c)).isSome = true
          · have hh := hyp (c, t) (List.mem_cons_self _ _)
            simp only [absentWhenFiltered, if_pos hf] at hh
            rw [hlk] at hh
            have hnone : parseCell t cell = .ok .vnone := of_decide_eq_true hh
            rw [hpc] at hnone
            obtain rfl := Except.ok.inj hnone
            unfold filterHit
            cases hfind : fl.find? (fun p => p.1 == c) with
            | none => rfl
            | some pr => simp [find_common]
          · unfold filterHit
            have hnone : fl.find? (fun p => p.1 == c) = none := by
              cases hfind : fl.find? (fun p => p.1 == c) with
              | none => rfl
              | some pr => exact absurd (by simp [hfind]) hf
            rw [hnone]
            rfl
        rw [if_neg (by simp [hfh])]
        apply ih
        intro e2 he2
        obtain ⟨col, ty⟩ := e2
        by_cases hcc : c = col
        · subst hcc
          by_cases hb : t = Ty.bool
          · subst hb
            obtain ⟨v, b, hcell, hpb, hpv⟩ := parseCell_bool_ok cell pv hpc
            by_cases hf : (fl.find? (fun p => p.1 == c)).isSome = true
            · have hh := hyp (c, Ty.bool) (List.mem_cons_self _ _)
              simp only [absentWhenFiltered, if_pos hf] at hh
              rw [hlk] at hh
              have hnone : parseCell Ty.bool cell = .ok .vnone := of_decide_eq_true hh
              exact absurd hnone (parseCell_bool_ne_vnone cell)
            · simp only [absentWhenFiltered]
              rw [if_neg hf]
          · rw [boolWriteBack_not_bool row c t pv hb]
            exact hyp (c, ty) (List.mem_cons_of_mem _ he2)
        · have hh := hyp (col, ty) (List.mem_cons_of_mem _ he2)
          simp only [absentWhenFiltered] at hh ⊢
          rw [boolWriteBack_lookup_ne row c col t pv hcc]
          exact hh

/-- Claim C7 (confirmed): find_common treats a scalar as a one-element set
and a sequence as the set of its elements, returning true exactly when that
set intersects the exclusion values; consequently a games row whose themes
field holds the text with 42 and 18 under the rule excluding 42 never lands
in the valid partition, whatever its other fields hold, and when its id is
present and non-sentinel its outcome is a rejection. -/
theorem C7_filter_match (l vals : List Int) (n : Int) (row : Row) (idc : Cell) :
    (find_common (.varr l) vals = true ↔ ∃ x ∈ l, x ∈ vals) ∧
    (find_common (.vint n) vals = true ↔ n ∈ vals) ∧
    (lookupRow row "themes" = some (.str (some "\x7b42, 18\x7d".data)) →
      (validateRow games_columns games_filters row).isAccepted = false) ∧
    (lookupRow row "id" = some idc → isSentinelCell idc = false →
      lookupRow row "themes" = some (.str (some "\x7b42, 18\x7d".data)) →
      validateRow games_columns games_filters row = .rejectedParse ∨
      validateRow games_columns games_filters row = .rejectedFilter) := by
  have hkey : ∀ row' : Row, lookupRow row "themes" = some (.str (some "\x7b42, 18\x7d".data)) →
      loopCols games_columns games_filters row ≠ .accepted row' := by
    intro row' hth hloop
    obtain ⟨cell, pv, hlk, hpc, hfh⟩ :=
      loopCols_accepted_entry games_columns games_filters row row' hloop (by decide)
        "themes" Ty.int_array (by decide)
    rw [hth] at hlk
    obtain rfl := Option.some.inj hlk
    have hval : parseCell Ty.int_array (Cell.str (some "\x7b42, 18\x7d".data)) =
        .ok (.varr [42, 18]) := by decide
    rw [hval] at hpc
    obtain rfl := Except.ok.inj hpc
    exact absurd hfh (by decide)
  refine ⟨?_, ?_, ?_, ?_⟩
  · simp [find_common]
  · simp [find_common]
  · intro hth
    cases hacc : validateRow games_columns games_filters row with
    | accepted row' => exact absurd (validateRow_accepted _ _ _ _ hacc) (hkey row' hth)
    | crashed => rfl
    | skipped => rfl
    | rejectedParse => rfl
    | rejectedFilter => rfl
  · intro hid hsent hth
    have hval : validateRow games_columns games_filters row =
        loopCols games_columns games_filters row := by
      unfold validateRow
      simp only [hid]
      rw [if_neg (by simp [hsent])]
    rw [hval]
    rcases loopCols_outcomes games_columns games_filters row with h | h | ⟨r', h⟩
    · exact Or.inl h
    · exact Or.inr h
    · exact absurd h (hkey r' hth)

def c7row : Row :=
  [("id", .str (some "1".data)), ("themes", .str (some "\x7b42, 18\x7d".data))]

theorem C7_filter_match_witness :
    lookupRow c7row "themes" = some (.str (some "\x7b42, 18\x7d".data)) ∧
    lookupRow c7row "id" = some (.str (some "1".data)) ∧
    isSentinelCell (.str (some "1".data)) = false ∧
    (validateRow games_columns games_filters c7row).isAccepted = false ∧
    (validateRow games_columns games_filters c7row = .rejectedParse ∨
     validateRow games_columns games_filters c7row = .rejectedFilter) :=
  ⟨by decide, by decide, by decide,
   (C7_filter_match [] [] 0 c7row (.str (some "1".data))).2.2.1 (by decide),
   (C7_filter_match [] [] 0 c7row (.str (some "1".data))).2.2.2 (by decide) (by decide) (by decide)⟩

/-- Claim C8 (confirmed): a row whose id holds a sentinel (the null marker,
empty string, the text None or the text null) is skipped before validation,
so it enters neither the valid nor the invalid partition and alters neither
count. -/
theorem C8_sentinel_id_uncounted (schema : List (String × Ty)) (fl : FilterCfg)
    (pre post : List Row) (row : Row) (v : Option Str)
    (hid : lookupRow row "id" = some (.str v)) (hv : isSentinel v = true) :
    validateRow schema fl row = .skipped ∧
    validRows schema fl (pre ++ row :: post) = validRows schema fl (pre ++ post) ∧
    invalidRows schema fl (pre ++ row :: post) = invalidRows schema fl (pre ++ post) := by
  have hskip : validateRow schema fl row = .skipped := by
    unfold validateRow
    simp only [hid]
    rw [if_pos (by simp [isSentinelCell, hv])]
  refine ⟨hskip, ?_, ?_⟩
  · simp [validRows, List.filterMap_append, List.filterMap_cons, hskip]
  · simp [invalidRows, List.filter_append, List.filter_cons, hskip]

def c8row : Row := [("id", .str (some "".data)), ("x", .str (some "1".data))]

theorem C8_sentinel_id_uncounted_witness :
    lookupRow c8row "id" = some (.str (some "".data)) ∧
    isSentinel (some "".data) = true ∧
    (validateRow games_columns games_filters c8row = .skipped ∧
     validRows games_columns games_filters ([] ++ c8row :: []) =
       validRows games_columns games_filters ([] ++ []) ∧
     invalidRows games_columns games_filters ([] ++ c8row :: []) =
       invalidRows games_columns games_filters ([] ++ [])) :=
  ⟨by decide, by decide,
   C8_sentinel_id_uncounted games_columns games_filters [] [] c8row (some "".data)
     (by decide) (by decide)⟩

/-- Claim C9 (confirmed): in an accepted row, boolean columns are the only
ones overwritten with their parsed value; every other schema column still
holds the original raw cell when the row reaches the upsert writer. -/
theorem C9_raw_values_persist (schema : List (String × Ty)) (fl : FilterCfg)
    (row row' : Row) (hnd : (schema.map Prod.fst).Nodup)
    (hacc : validateRow schema fl row = .accepted row') :
    ∀ col ty, (col, ty) ∈ schema → col ≠ "" →
      (ty ≠ Ty.bool → lookupRow row' col = lookupRow row col) ∧
      (ty = Ty.bool → ∃ v b, lookupRow row col = some (.str v) ∧ parse_bool v = .ok b ∧
        lookupRow row' col = some (.bool b)) :=
  loopCols_types schema fl row row' hnd (validateRow_accepted schema fl row row' hacc)

def c9row : Row :=
  [("id", .str (some "1".data)), ("url", .str (some "u".data)),
   ("image_id", .str (some "i".data)), ("width", .str (some "3".data)),
   ("height", .str (some "4".data)), ("alpha_channel", .str (some "t".data)),
   ("animated", .str (some "f".data)), ("game", .str (some "7".data)),
   ("checksum", .str (some "550e8400-e29b-41d4-a716-446655440000".data)),
   ("game_localization", .str (some "9".data))]

def c9rowOut : Row :=
  [("id", .str (some "1".data)), ("url", .str (some "u".data)),
   ("image_id", .str (some "i".data)), ("width", .str (some "3".data)),
   ("height", .str (some "4".data)), ("alpha_channel", .bool true),
   ("animated", .bool false), ("game", .str (some "7".data)),
   ("checksum", .str (some "550e8400-e29b-41d4-a716-446655440000".data)),
   ("game_localization", .str (some "9".data))]

theorem C9_raw_values_persist_witness :
    (covers_columns.map Prod.fst).Nodup ∧
    validateRow covers_columns [] c9row = .accepted c9rowOut ∧
    ("url", Ty.text) ∈ covers_columns ∧ ("alpha_channel", Ty.bool) ∈ covers_columns ∧
    lookupRow c9rowOut "url" = lookupRow c9row "url" ∧
    (∃ v b, lookupRow c9row "alpha_channel" = some (.str v) ∧ parse_bool v = .ok b ∧
      lookupRow c9rowOut "alpha_channel" = some (.bool b)) :=
  ⟨by decide, by decide, by decide, by decide,
   (C9_raw_values_persist covers_columns [] c9row c9rowOut (by decide) (by decide)
     "url" Ty.text (by decide) (by decide)).1 (by decide),
   (C9_raw_values_persist covers_columns [] c9row c9rowOut (by decide) (by decide)
     "alpha_channel" Ty.bool (by decide) (by decide)).2 rfl⟩

/-- Claim C10 (confirmed): an absent parsed value never intersects an
exclusion set (the singleton holding the null marker meets no integers), a
type tag with no registered parser leaves the value absent, and a row whose
filter-configured fields all parse to absent is never rejected as a filter
match. -/
theorem C10_absent_never_filter_match :
    (∀ vals : List Int, find_common .vnone vals = false) ∧
    (∀ cell : Cell, parseCell Ty.other cell = .ok .vnone) ∧
    (∀ (schema : List (String × Ty)) (fl : FilterCfg) (row : Row),
      (∀ e ∈ schema, absentWhenFiltered fl row e = true) →
      validateRow schema fl row ≠ .rejectedFilter) := by
  refine ⟨fun vals => rfl, fun cell => by cases cell <;> rfl, ?_⟩
  intro schema fl row hyp
  unfold validateRow
  split
  · simp
  · split
    · simp
    · exact loopCols_absent_no_filter schema fl row hyp

def c10row : Row := [("id", .str (some "1".data)), ("themes", .str (some "".data))]

theorem C10_absent_never_filter_match_witness :
    games_columns.all (fun e => absentWhenFiltered games_filters c10row e) = true ∧
    find_common .vnone [42] = false ∧
    parseCell Ty.other (.str (some "weird".data)) = .ok .vnone ∧
    validateRow games_columns games_filters c10row ≠ .rejectedFilter :=
  ⟨by decide, C10_absent_never_filter_match.1 [42],
   C10_absent_never_filter_match.2.1 (.str (some "weird".data)),
   C10_absent_never_filter_match.2.2 games_columns games_filters c10row (by decide)⟩
